import Mathlib

/-!
Verification of the FSI coupling engine (`fsi.cpp`) and the CLI harness.

The development shallowly embeds the coupling code over exact rationals:
vectors and matrices are lists of rationals, a mesh is a list of vertex
coordinates plus cells given by vertex indices, and the external deal.II
geometric and interpolation routines (`point_inside`,
`VectorTools::point_value`, `VectorTools::point_gradient`) are parameters
of the embedded functions (interpolation on the solid mesh is
`Option`-valued, since it can fail for points outside the mesh).
-/

namespace FSIVerif

/-- A vector of rationals (a `Point<dim>`, `Tensor<1,dim>` or `Vector<double>`). -/
abbrev Vec := List ℚ

/-- A matrix of rationals (a `Tensor<2,dim>` or `SymmetricTensor<2,dim>`). -/
abbrev Mat := List (List ℚ)

def vecAdd (a b : Vec) : Vec := List.zipWith (· + ·) a b

def vecSub (a b : Vec) : Vec := List.zipWith (· - ·) a b

def smulVec (c : ℚ) (a : Vec) : Vec := a.map (fun x => c * x)

/-- Componentwise division `dv / dt` of a vector by a scalar. -/
def vecDiv (a : Vec) (c : ℚ) : Vec := a.map (fun x => x / c)

def matAdd (A B : Mat) : Mat := List.zipWith vecAdd A B

def matSub (A B : Mat) : Mat := List.zipWith vecSub A B

def smulMat (c : ℚ) (A : Mat) : Mat := A.map (smulVec c)

def dot (a b : Vec) : ℚ := (List.zipWith (· * ·) a b).sum

/-- Matrix–vector product, used for `stress * normal` and `grad_v * v`. -/
def matVec (A : Mat) (x : Vec) : Vec := A.map (fun r => dot r x)

/-- The identity tensor `Physics::Elasticity::StandardTensors<dim>::I`. -/
def idMat (dim : Nat) : Mat :=
  (List.range dim).map (fun i => (List.range dim).map (fun j => if i = j then (1 : ℚ) else 0))

/-! ## Meshes and `move_solid_mesh` -/

/-- A triangulation: mutable vertex coordinates, and active cells given as
lists of vertex indices (`cell->vertex_index(v)`). -/
structure Mesh where
  vertexCoords : List Vec
  cells : List (List Nat)
deriving DecidableEq

/-- `cell->vertex(v) += displacement` resp. `-=` depending on `move_forward`. -/
def vecOp (forward : Bool) (p d : Vec) : Vec :=
  if forward then vecAdd p d else vecSub p d

/-- The body of the `move_solid_mesh` loop: walk the vertex indices of all
cells in order, and displace each vertex the first time it is seen,
tracking seen vertices in the `vertex_touched` flags. -/
def applyMove (forward : Bool) (disp : Nat → Vec) :
    List Nat → List Vec × List Bool → List Vec × List Bool
  | [], st => st
  | v :: rest, st =>
    if st.2.getD v true then applyMove forward disp rest st
    else
      applyMove forward disp rest
        (st.1.set v (vecOp forward (st.1.getD v []) (disp v)), st.2.set v true)

/-- `FSI<dim>::move_solid_mesh(move_forward)`: displace every vertex of the
solid triangulation by the sampled `current_displacement`, once per vertex. -/
def move_solid_mesh (forward : Bool) (disp : Nat → Vec) (m : Mesh) : Mesh :=
  { m with
    vertexCoords :=
      (applyMove forward disp m.cells.flatten
        (m.vertexCoords, List.replicate m.vertexCoords.length false)).1 }

/-! ## `point_in_mesh` and `update_indicator` -/

/-- The vertex coordinates of one cell, looked up in the current geometry. -/
def cellVertices (m : Mesh) (c : List Nat) : List Vec :=
  c.map (fun v => m.vertexCoords.getD v [])

/-- `FSI<dim>::point_in_mesh`: true iff some active cell's
`cell->point_inside(point)` holds.  The deal.II geometric predicate
`point_inside` is the parameter `inside`, applied to the cell's current
vertex coordinates. -/
def point_in_mesh (inside : List Vec → Vec → Bool) (m : Mesh) (point : Vec) : Bool :=
  m.cells.any (fun c => inside (cellVertices m c) point)

/-- Per-fluid-cell data: the `cell_property` indicator and viscosity `mu`,
the physical quadrature points, and the per-quadrature-point fluid field
values extracted by `FEValues` (`sym_grad_v`, `grad_v`, `v`, `dv`, `p`). -/
structure FluidCellData where
  indicator : Nat
  mu : ℚ
  qpoints : List Vec
  sym_grad_v : List Mat
  grad_v : List Mat
  v : List Vec
  dv : List Vec
  p : List ℚ
deriving DecidableEq

/-- Default fluid cell, used only as the out-of-range default of `List.getD`. -/
def fc0 : FluidCellData := ⟨0, 0, [], [], [], [], [], []⟩

/-- `FSI<dim>::update_indicator`: displace the solid mesh forward, mark every
fluid cell whose quadrature points all lie in the displaced solid mesh with
indicator 1 (0 otherwise), then displace the solid mesh back.  Returns the
final solid mesh and the updated fluid cells. -/
def update_indicator (inside : List Vec → Vec → Bool) (disp : Nat → Vec)
    (solid : Mesh) (fluid : List FluidCellData) : Mesh × List FluidCellData :=
  let s := move_solid_mesh true disp solid
  let fluid' := fluid.map (fun fc =>
    { fc with
      indicator := if fc.qpoints.all (fun q => point_in_mesh inside s q) then 1 else 0 })
  (move_solid_mesh false disp s, fluid')

/-! ## `find_fluid_fsi` -/

/-- The body of the inner quadrature loop of `FSI<dim>::find_fluid_fsi` at
quadrature index `q` of one fluid cell: interpolate the solid acceleration
(`VectorTools::point_value` on `current_acceleration`) and the
component-wise solid stress (on `stress[i][j]`) at the physical quadrature
point — both may fail when the point is outside the solid mesh — build
`fluid_sigma = -p I + mu sym_grad_v` and `fluid_acc = dv/dt + grad_v * v`,
and return the stress and acceleration discrepancies pushed back. -/
def fsi_point (dim : Nat) (dt mu : ℚ) (sAcc : Vec → Option Vec) (sSig : Vec → Option Mat)
    (cell : FluidCellData) (q : Nat) : Option (Mat × Vec) := do
  let q_point := cell.qpoints.getD q []
  let solid_acc ← sAcc q_point
  let solid_sigma ← sSig q_point
  let fluid_sigma :=
    matAdd (smulMat (-(cell.p.getD q 0)) (idMat dim)) (smulMat mu (cell.sym_grad_v.getD q []))
  let fluid_acc :=
    vecAdd (vecDiv (cell.dv.getD q []) dt) (matVec (cell.grad_v.getD q []) (cell.v.getD q []))
  some (matSub fluid_sigma solid_sigma, vecSub fluid_acc solid_acc)

/-- The inner quadrature loop of `FSI<dim>::find_fluid_fsi` over the listed
quadrature indices of one fluid cell, collecting the pushed-back pairs in
order; a failed interpolation aborts the loop (the C++ exception escapes). -/
def fsi_cell_points (dim : Nat) (dt : ℚ) (sAcc : Vec → Option Vec)
    (sSig : Vec → Option Mat) (cell : FluidCellData) :
    List Nat → Option (List (Mat × Vec))
  | [] => some []
  | q :: qs => do
    let pr ← fsi_point dim dt cell.mu sAcc sSig cell q
    let rest ← fsi_cell_points dim dt sAcc sSig cell qs
    some (pr :: rest)

/-- `FSI<dim>::find_fluid_fsi`: traverse the fluid cells in order, skip cells
with `indicator == 0`, and for each quadrature point (`q = 0, …, n_q_points-1`)
of the remaining cells push back the stress and acceleration discrepancies.
A failed solid-side interpolation propagates (the C++ exception escapes the
loop), yielding `none`. -/
def find_fluid_fsi (dim nQ : Nat) (dt : ℚ) (sAcc : Vec → Option Vec)
    (sSig : Vec → Option Mat) : List FluidCellData → Option (List Mat × List Vec)
  | [] => some ([], [])
  | cell :: rest =>
    if cell.indicator = 0 then find_fluid_fsi dim nQ dt sAcc sSig rest
    else do
      let pairs ← fsi_cell_points dim dt sAcc sSig cell (List.range nQ)
      let (s, a) ← find_fluid_fsi dim nQ dt sAcc sSig rest
      some (pairs.map Prod.fst ++ s, pairs.map Prod.snd ++ a)

/-- The body of the run loop between `update_indicator()` and
`run_one_step` on the fluid: `update_indicator()` followed by
`find_fluid_fsi`, where the solid-side interpolation operators read the
solid mesh as it stands after `update_indicator()` returned. -/
def indicator_then_fsi (inside : List Vec → Vec → Bool) (disp : Nat → Vec)
    (sAcc : Mesh → Vec → Option Vec) (sSig : Mesh → Vec → Option Mat)
    (dim nQ : Nat) (dt : ℚ) (solid : Mesh) (fluid : List FluidCellData) :
    Mesh × List FluidCellData × Option (List Mat × List Vec) :=
  let su := update_indicator inside disp solid fluid
  (su.1, su.2, find_fluid_fsi dim nQ dt (sAcc su.1) (sSig su.1) su.2)

/-! ## `find_solid_bc` -/

/-- One face of a solid cell: whether `face->at_boundary()` holds, the
`boundary_id`, and the (undeformed) physical quadrature points and normal
vectors delivered by `FEFaceValues`. -/
structure SolidFace where
  at_boundary : Bool
  boundary_id : Nat
  qpoints : List Vec
  normals : List Vec
deriving DecidableEq

/-- A solid cell as seen by `find_solid_bc`: its faces. -/
structure SolidCellBC where
  faces : List SolidFace
deriving DecidableEq

/-- The body of the quadrature loop of `FSI<dim>::find_solid_bc` at index `q`
of one qualifying face: interpolate the fluid solution value and gradient at
the undeformed quadrature point, symmetrize the velocity gradient, build
`stress = -p I + viscosity * sym_deformation` (the pressure is component
`dim` of the interpolated value) and push back `stress * normal` with the
undeformed normal. -/
def solid_bc_point (dim : Nat) (viscosity : ℚ) (fluidValue : Vec → List ℚ)
    (fluidGrad : Vec → List Vec) (face : SolidFace) (q : Nat) : Vec :=
  let q_point := face.qpoints.getD q []
  let normal := face.normals.getD q []
  let value := fluidValue q_point
  let gradient := fluidGrad q_point
  let sym_deformation : Mat :=
    (List.range dim).map (fun i => (List.range dim).map (fun j =>
      ((gradient.getD i []).getD j 0 + (gradient.getD j []).getD i 0) / 2))
  let stress := matAdd (smulMat (-(value.getD dim 0)) (idMat dim)) (smulMat viscosity sym_deformation)
  matVec stress normal

/-- Whether `find_solid_bc` processes a face: it is at the boundary and its
boundary id is not in `parameters.solid_dirichlet_bcs`. -/
def bcFaceQualifies (dirichlet : List Nat) (f : SolidFace) : Bool :=
  f.at_boundary && !(dirichlet.contains f.boundary_id)

/-- `FSI<dim>::find_solid_bc`: traverse the solid cells and their faces in
order; for every boundary face whose id carries no Dirichlet condition,
push back one traction vector per face quadrature point. -/
def find_solid_bc (dim nFQ : Nat) (viscosity : ℚ) (dirichlet : List Nat)
    (fluidValue : Vec → List ℚ) (fluidGrad : Vec → List Vec) :
    List SolidCellBC → List Vec
  | [] => []
  | c :: rest =>
    c.faces.flatMap (fun f =>
      if bcFaceQualifies dirichlet f then
        (List.range nFQ).map (solid_bc_point dim viscosity fluidValue fluidGrad f)
      else []) ++ find_solid_bc dim nFQ viscosity dirichlet fluidValue fluidGrad rest

/-! ## The time controller and the run loop -/

/-- The loop tolerance `1e-12` of `FSI<dim>::run`. -/
def eps : ℚ := 1 / 1000000000000

/-- The `Utils::Time` state used by the run loop: end time, time step, and
current time. -/
structure TimeCtrl where
  endT : ℚ
  delta : ℚ
  current : ℚ
deriving DecidableEq

/-- `time.increment()`: advance the current time by one time step. -/
def tick (t : TimeCtrl) : TimeCtrl := { t with current := t.current + t.delta }

/-- The observable actions of one `FSI<dim>::run` loop body, in program
order; the solver steps record the `first_step` flag they receive. -/
inductive Event where
  | findSolidBC : Event
  | solidStep : Bool → Event
  | updateIndicator : Event
  | findFluidFSI : Event
  | fluidStep : Bool → Event
  | increment : Event
deriving DecidableEq

/-- The events of one full cycle of the run loop, in the order the body of
`FSI<dim>::run` performs them. -/
def cycleEvents (first : Bool) : List Event :=
  [Event.findSolidBC, Event.solidStep first, Event.updateIndicator,
   Event.findFluidFSI, Event.fluidStep first, Event.increment]

/-- The loop of `FSI<dim>::run` as an event trace, with explicit fuel:
while `end() - current() > 1e-12`, emit one cycle (with the current
`first_step`, which becomes false afterwards) and increment the time;
`none` means the fuel ran out with the loop still running. -/
def runAux : Nat → Bool → TimeCtrl → Option (List Event × TimeCtrl)
  | 0, _, t => if t.endT - t.current > eps then none else some ([], t)
  | n + 1, first, t =>
    if t.endT - t.current > eps then
      (runAux n false (tick t)).map (fun r => (cycleEvents first ++ r.1, r.2))
    else some ([], t)

/-! ## The CLI harness (`main`) -/

/-- The configuration-file choice of `main`: `infile = "parameters.prm"`,
overridden by `argv[1]` when `argc > 1`.  `args` are the user-supplied
arguments `argv[1..]`. -/
def chooseInfile (args : List String) : String :=
  match args with
  | [] => "parameters.prm"
  | a :: _ => a

/-- How a run of the body of `main` can fail: a caught `std::exception`
with its message, or any other thrown object. -/
inductive RunError where
  | exc : String → RunError
  | unknown : RunError
deriving DecidableEq

/-- The `try`/`catch` skeleton of `main`: run the body on the chosen
configuration file; return exit code 0 with no diagnostics on success, and
exit code 1 with the catch block's standard-error lines on any uncaught
failure. -/
def mainRun (args : List String) (body : String → Except RunError Unit) :
    Nat × List String :=
  match body (chooseInfile args) with
  | Except.ok _ => (0, [])
  | Except.error (RunError.exc msg) =>
    (1, ["Exception on processing: ", msg, "Aborting!"])
  | Except.error RunError.unknown => (1, ["Unknown exception!", "Aborting!"])

/-! ## Helper lemmas about `move_solid_mesh` -/

lemma getD_set_eq {α : Type} (l : List α) (i : Nat) (a d : α) (h : i < l.length) :
    (l.set i a).getD i d = a := by
  rw [List.getD_eq_getElem _ _ (by simpa using h)]
  exact List.getElem_set_self ..

lemma getD_set_ne {α : Type} (l : List α) (i j : Nat) (a d : α) (hne : i ≠ j) :
    (l.set i a).getD j d = l.getD j d := by
  by_cases hj : j < l.length
  · rw [List.getD_eq_getElem _ _ (by simpa using hj), List.getD_eq_getElem _ _ hj]
    exact List.getElem_set_ne hne ..
  · rw [List.getD_eq_default _ _ (by simpa using Nat.le_of_not_lt hj),
      List.getD_eq_default _ _ (Nat.le_of_not_lt hj)]

lemma getD_replicate_lt {α : Type} (n i : Nat) (a d : α) (h : i < n) :
    (List.replicate n a).getD i d = a := by
  rw [List.getD_eq_getElem _ _ (by simpa using h)]
  exact List.getElem_replicate ..

lemma applyMove_cons (forward : Bool) (disp : Nat → Vec) (v : Nat) (rest : List Nat)
    (coords : List Vec) (touched : List Bool) :
    applyMove forward disp (v :: rest) (coords, touched) =
      if touched.getD v true then applyMove forward disp rest (coords, touched)
      else
        applyMove forward disp rest
          (coords.set v (vecOp forward (coords.getD v []) (disp v)), touched.set v true) := rfl

lemma applyMove_fst_length (forward : Bool) (disp : Nat → Vec) (vs : List Nat) :
    ∀ (coords : List Vec) (touched : List Bool),
      ((applyMove forward disp vs (coords, touched)).1).length = coords.length := by
  induction vs with
  | nil => intro coords touched; rfl
  | cons v rest ih =>
    intro coords touched
    rw [applyMove_cons]
    cases hv : touched.getD v true with
    | true => rw [if_pos rfl]; exact ih coords touched
    | false =>
      rw [if_neg (by decide)]
      exact (ih _ _).trans (List.length_set ..)

lemma applyMove_fst_getD (forward : Bool) (disp : Nat → Vec) (vs : List Nat) :
    ∀ (coords : List Vec) (touched : List Bool) (i : Nat), i < coords.length →
      ((applyMove forward disp vs (coords, touched)).1).getD i [] =
        if touched.getD i true = false ∧ i ∈ vs then
          vecOp forward (coords.getD i []) (disp i)
        else coords.getD i [] := by
  induction vs with
  | nil =>
    intro coords touched i hi
    rw [if_neg]
    · rfl
    · rintro ⟨-, hmem⟩
      exact (List.not_mem_nil i) hmem
  | cons v rest ih =>
    intro coords touched i hi
    rw [applyMove_cons]
    cases hv : touched.getD v true with
    | true =>
      rw [if_pos rfl, ih coords touched i hi]
      by_cases hiv : i = v
      · subst hiv
        rw [if_neg, if_neg]
        · rintro ⟨hf, -⟩; rw [hv] at hf; exact absurd hf (by decide)
        · rintro ⟨hf, -⟩; rw [hv] at hf; exact absurd hf (by decide)
      · by_cases hcond : touched.getD i true = false ∧ i ∈ rest
        · rw [if_pos hcond, if_pos ⟨hcond.1, List.mem_cons_of_mem v hcond.2⟩]
        · rw [if_neg hcond, if_neg]
          rintro ⟨hf, hmem⟩
          rcases List.mem_cons.mp hmem with h1 | h2
          · exact hiv h1
          · exact hcond ⟨hf, h2⟩
    | false =>
      have hvlt : v < touched.length := by
        by_contra hge
        rw [List.getD_eq_default _ _ (Nat.le_of_not_lt hge)] at hv
        exact absurd hv (by decide)
      rw [if_neg (by decide)]
      rw [ih _ _ i (by rw [List.length_set]; exact hi)]
      by_cases hiv : i = v
      · subst hiv
        have ht' : (touched.set i true).getD i true = true := getD_set_eq _ _ _ _ hvlt
        have hc' : (coords.set i (vecOp forward (coords.getD i []) (disp i))).getD i []
            = vecOp forward (coords.getD i []) (disp i) := getD_set_eq _ _ _ _ hi
        rw [if_neg, hc', if_pos ⟨hv, List.mem_cons_self i rest⟩]
        rintro ⟨hf, -⟩
        rw [ht'] at hf
        exact absurd hf (by decide)
      · have hvi : v ≠ i := fun h => hiv h.symm
        have ht' : (touched.set v true).getD i true = touched.getD i true :=
          getD_set_ne _ _ _ _ _ hvi
        have hc' : (coords.set v (vecOp forward (coords.getD v []) (disp v))).getD i []
            = coords.getD i [] := getD_set_ne _ _ _ _ _ hvi
        rw [ht', hc']
        by_cases hcond : touched.getD i true = false ∧ i ∈ rest
        · rw [if_pos hcond, if_pos ⟨hcond.1, List.mem_cons_of_mem v hcond.2⟩]
        · rw [if_neg hcond, if_neg]
          rintro ⟨hf, hmem⟩
          rcases List.mem_cons.mp hmem with h1 | h2
          · exact hiv h1
          · exact hcond ⟨hf, h2⟩

lemma move_solid_mesh_cells (forward : Bool) (disp : Nat → Vec) (m : Mesh) :
    (move_solid_mesh forward disp m).cells = m.cells := rfl

lemma move_solid_mesh_length (forward : Bool) (disp : Nat → Vec) (m : Mesh) :
    (move_solid_mesh forward disp m).vertexCoords.length = m.vertexCoords.length :=
  applyMove_fst_length forward disp m.cells.flatten m.vertexCoords _

/-- Pointwise description of `move_solid_mesh`: a vertex that occurs in some
cell is displaced (added for forward, subtracted otherwise), any other
vertex is untouched. -/
lemma move_solid_mesh_getD (forward : Bool) (disp : Nat → Vec) (m : Mesh)
    (i : Nat) (hi : i < m.vertexCoords.length) :
    (move_solid_mesh forward disp m).vertexCoords.getD i [] =
      if i ∈ m.cells.flatten then
        vecOp forward (m.vertexCoords.getD i []) (disp i)
      else m.vertexCoords.getD i [] := by
  have h := applyMove_fst_getD forward disp m.cells.flatten m.vertexCoords
    (List.replicate m.vertexCoords.length false) i hi
  have hrep : (List.replicate m.vertexCoords.length false).getD i true = false :=
    getD_replicate_lt _ _ _ _ hi
  rw [hrep] at h
  show (applyMove forward disp m.cells.flatten
      (m.vertexCoords, List.replicate m.vertexCoords.length false)).1.getD i [] = _
  rw [h]
  by_cases hmem : i ∈ m.cells.flatten
  · rw [if_pos ⟨rfl, hmem⟩, if_pos hmem]
  · rw [if_neg (fun hc => hmem hc.2), if_neg hmem]

lemma vec_roundtrip (p d : Vec) (h : p.length ≤ d.length) :
    vecSub (vecAdd p d) d = p := by
  induction p generalizing d with
  | nil => simp [vecAdd, vecSub]
  | cons a p ih =>
    cases d with
    | nil => simp at h
    | cons b d =>
      simp only [vecAdd, vecSub, List.zipWith_cons_cons]
      rw [show a + b - b = a by ring]
      have := ih d (by simpa using h)
      simp only [vecAdd, vecSub] at this
      rw [this]

/-- `move_solid_mesh(true)` followed by `move_solid_mesh(false)` with the
same displacement restores the solid mesh exactly. -/
lemma move_solid_mesh_roundtrip (disp : Nat → Vec) (m : Mesh) (dim : Nat)
    (hc : ∀ p ∈ m.vertexCoords, p.length = dim)
    (hd : ∀ v, (disp v).length = dim) :
    move_solid_mesh false disp (move_solid_mesh true disp m) = m := by
  have hlen1 : (move_solid_mesh true disp m).vertexCoords.length = m.vertexCoords.length :=
    move_solid_mesh_length true disp m
  have hlen2 : (move_solid_mesh false disp (move_solid_mesh true disp m)).vertexCoords.length
      = m.vertexCoords.length := by
    rw [move_solid_mesh_length false disp _, hlen1]
  have hgetD : ∀ i, i < m.vertexCoords.length →
      (move_solid_mesh false disp (move_solid_mesh true disp m)).vertexCoords.getD i []
        = m.vertexCoords.getD i [] := by
    intro i hi
    have h1 := move_solid_mesh_getD true disp m i hi
    have h2 := move_solid_mesh_getD false disp (move_solid_mesh true disp m) i
      (by rw [hlen1]; exact hi)
    rw [move_solid_mesh_cells true disp m] at h2
    rw [h2, h1]
    by_cases hmem : i ∈ m.cells.flatten
    · have hlenp : (m.vertexCoords.getD i []).length ≤ (disp i).length := by
        rw [hd i]
        have : m.vertexCoords.getD i [] ∈ m.vertexCoords := by
          rw [List.getD_eq_getElem _ _ hi]
          exact List.getElem_mem _
        exact le_of_eq (hc _ this)
      rw [if_pos hmem, if_pos hmem]
      show vecSub (vecAdd (m.vertexCoords.getD i []) (disp i)) (disp i) = _
      exact vec_roundtrip _ _ hlenp
    · rw [if_neg hmem, if_neg hmem]
  have hcoords : (move_solid_mesh false disp (move_solid_mesh true disp m)).vertexCoords
      = m.vertexCoords := by
    apply List.ext_getElem hlen2
    intro i h1 h2
    have := hgetD i h2
    rwa [List.getD_eq_getElem _ _ h1, List.getD_eq_getElem _ _ h2] at this
  cases m with
  | mk coords cells =>
    simp only [move_solid_mesh] at hcoords ⊢
    exact congrArg (fun c => Mesh.mk c cells) hcoords

/-! ## Helper lemmas about `find_fluid_fsi` -/

/-- The stress discrepancy `fluid_sigma - solid_sigma` that `find_fluid_fsi`
pushes back for quadrature point `q` of cell `c`, with
`fluid_sigma = -p I + mu sym_grad_v` and the solid stress interpolated at
the physical quadrature point. -/
def fluid_minus_solid_stress (dim : Nat) (sSig : Vec → Option Mat)
    (c : FluidCellData) (q : Nat) : Mat :=
  matSub
    (matAdd (smulMat (-(c.p.getD q 0)) (idMat dim)) (smulMat c.mu (c.sym_grad_v.getD q [])))
    ((sSig (c.qpoints.getD q [])).getD [])

/-- The acceleration discrepancy `fluid_acc - solid_acc` that
`find_fluid_fsi` pushes back for quadrature point `q` of cell `c`, with
`fluid_acc = dv/dt + grad_v * v` and the solid acceleration interpolated at
the physical quadrature point. -/
def fluid_minus_solid_accel (dt : ℚ) (sAcc : Vec → Option Vec)
    (c : FluidCellData) (q : Nat) : Vec :=
  vecSub
    (vecAdd (vecDiv (c.dv.getD q []) dt) (matVec (c.grad_v.getD q []) (c.v.getD q [])))
    ((sAcc (c.qpoints.getD q [])).getD [])

lemma fsi_point_eq (dim : Nat) (dt : ℚ) (sAcc : Vec → Option Vec) (sSig : Vec → Option Mat)
    (cell : FluidCellData) (q : Nat)
    (hA : (sAcc (cell.qpoints.getD q [])).isSome)
    (hS : (sSig (cell.qpoints.getD q [])).isSome) :
    fsi_point dim dt cell.mu sAcc sSig cell q =
      some (fluid_minus_solid_stress dim sSig cell q, fluid_minus_solid_accel dt sAcc cell q) := by
  obtain ⟨av, hav⟩ := Option.isSome_iff_exists.mp hA
  obtain ⟨sv, hsv⟩ := Option.isSome_iff_exists.mp hS
  simp only [fsi_point, fluid_minus_solid_stress, fluid_minus_solid_accel]
  rw [hav, hsv]
  rfl

lemma fsi_cell_points_cons (dim : Nat) (dt : ℚ) (sAcc : Vec → Option Vec)
    (sSig : Vec → Option Mat) (cell : FluidCellData) (q : Nat) (qs : List Nat) :
    fsi_cell_points dim dt sAcc sSig cell (q :: qs) =
      (fsi_point dim dt cell.mu sAcc sSig cell q).bind (fun pr =>
        (fsi_cell_points dim dt sAcc sSig cell qs).bind (fun rest =>
          some (pr :: rest))) := rfl

lemma fsi_cell_points_eq (dim : Nat) (dt : ℚ) (sAcc : Vec → Option Vec)
    (sSig : Vec → Option Mat) (cell : FluidCellData)
    (hA : ∀ pt, (sAcc pt).isSome) (hS : ∀ pt, (sSig pt).isSome) :
    ∀ qs : List Nat,
      fsi_cell_points dim dt sAcc sSig cell qs =
        some (qs.map (fun q =>
          (fluid_minus_solid_stress dim sSig cell q, fluid_minus_solid_accel dt sAcc cell q))) := by
  intro qs
  induction qs with
  | nil => rfl
  | cons q qs ih =>
    rw [fsi_cell_points_cons, fsi_point_eq dim dt sAcc sSig cell q (hA _) (hS _), ih]
    rfl

lemma fsi_cell_points_none (dim : Nat) (dt : ℚ) (sAcc : Vec → Option Vec)
    (sSig : Vec → Option Mat) (cell : FluidCellData) :
    ∀ qs : List Nat, ∀ q ∈ qs, fsi_point dim dt cell.mu sAcc sSig cell q = none →
      fsi_cell_points dim dt sAcc sSig cell qs = none := by
  intro qs
  induction qs with
  | nil => intro q hq; exact absurd hq (List.not_mem_nil q)
  | cons a qs ih =>
    intro q hq hnone
    rw [fsi_cell_points_cons]
    rcases List.mem_cons.mp hq with h1 | h2
    · subst h1; rw [hnone]; rfl
    · cases hfa : fsi_point dim dt cell.mu sAcc sSig cell a with
      | none => rfl
      | some pr => rw [ih q h2 hnone]; rfl

lemma find_fluid_fsi_cons (dim nQ : Nat) (dt : ℚ) (sAcc : Vec → Option Vec)
    (sSig : Vec → Option Mat) (cell : FluidCellData) (rest : List FluidCellData) :
    find_fluid_fsi dim nQ dt sAcc sSig (cell :: rest) =
      if cell.indicator = 0 then find_fluid_fsi dim nQ dt sAcc sSig rest
      else
        (fsi_cell_points dim dt sAcc sSig cell (List.range nQ)).bind (fun pairs =>
          (find_fluid_fsi dim nQ dt sAcc sSig rest).bind (fun r =>
            some (pairs.map Prod.fst ++ r.1, pairs.map Prod.snd ++ r.2))) := rfl

/-- When the solid-side interpolation succeeds everywhere, `find_fluid_fsi`
returns exactly, for each cell with non-zero indicator in traversal order
and for each of its `nQ` quadrature points in order, the pushed-back stress
and acceleration discrepancies. -/
lemma find_fluid_fsi_eq (dim nQ : Nat) (dt : ℚ) (sAcc : Vec → Option Vec)
    (sSig : Vec → Option Mat)
    (hA : ∀ pt, (sAcc pt).isSome) (hS : ∀ pt, (sSig pt).isSome) :
    ∀ cells : List FluidCellData,
      find_fluid_fsi dim nQ dt sAcc sSig cells =
        some
          ((cells.filter (fun c => !(c.indicator == 0))).flatMap (fun c =>
            (List.range nQ).map (fluid_minus_solid_stress dim sSig c)),
           (cells.filter (fun c => !(c.indicator == 0))).flatMap (fun c =>
            (List.range nQ).map (fluid_minus_solid_accel dt sAcc c))) := by
  intro cells
  induction cells with
  | nil => rfl
  | cons c rest ih =>
    rw [find_fluid_fsi_cons]
    by_cases hc : c.indicator = 0
    · have hb : (!(c.indicator == 0)) = false := by simp [hc]
      rw [if_pos hc, ih, List.filter_cons, hb, if_neg (by decide)]
    · have hb : (!(c.indicator == 0)) = true := by simp [hc]
      rw [if_neg hc, fsi_cell_points_eq dim dt sAcc sSig c hA hS (List.range nQ), ih]
      simp only [Option.some_bind]
      rw [List.filter_cons, hb, if_pos rfl, List.flatMap_cons, List.flatMap_cons,
        List.map_map, List.map_map]
      rfl

/-- When the solid acceleration interpolation fails at some quadrature point
of some cell with non-zero indicator, `find_fluid_fsi` yields no output at
all. -/
lemma find_fluid_fsi_none (dim nQ : Nat) (dt : ℚ) (sAcc : Vec → Option Vec)
    (sSig : Vec → Option Mat) :
    ∀ cells : List FluidCellData, ∀ c ∈ cells, ¬c.indicator = 0 →
      ∀ q, q < nQ → sAcc (c.qpoints.getD q []) = none →
      find_fluid_fsi dim nQ dt sAcc sSig cells = none := by
  intro cells
  induction cells with
  | nil => intro c hc; exact absurd hc (List.not_mem_nil c)
  | cons a rest ih =>
    intro c hc hind q hq hnone
    rw [find_fluid_fsi_cons]
    rcases List.mem_cons.mp hc with h1 | h2
    · subst h1
      have hpt : fsi_point dim dt c.mu sAcc sSig c q = none := by
        simp only [fsi_point]
        rw [hnone]
        rfl
      rw [if_neg hind,
        fsi_cell_points_none dim dt sAcc sSig c (List.range nQ) q (List.mem_range.mpr hq) hpt]
      rfl
    · by_cases ha : a.indicator = 0
      · rw [if_pos ha]; exact ih c h2 hind q hq hnone
      · rw [if_neg ha, ih c h2 hind q hq hnone]
        cases hcp : fsi_cell_points dim dt sAcc sSig a (List.range nQ) with
        | none => rfl
        | some pairs => rfl

/-! ## Helper lemmas about `update_indicator` -/

lemma update_indicator_snd_length (inside : List Vec → Vec → Bool) (disp : Nat → Vec)
    (solid : Mesh) (fluid : List FluidCellData) :
    (update_indicator inside disp solid fluid).2.length = fluid.length := by
  show (fluid.map _).length = fluid.length
  exact List.length_map ..

lemma update_indicator_getD (inside : List Vec → Vec → Bool) (disp : Nat → Vec)
    (solid : Mesh) (fluid : List FluidCellData) (i : Nat) (hi : i < fluid.length) :
    (update_indicator inside disp solid fluid).2.getD i fc0 =
      { fluid.getD i fc0 with
        indicator :=
          if (fluid.getD i fc0).qpoints.all
              (fun q => point_in_mesh inside (move_solid_mesh true disp solid) q)
          then 1 else 0 } := by
  show (fluid.map _).getD i fc0 = _
  rw [List.getD_eq_getElem _ _ (by rw [List.length_map]; exact hi), List.getElem_map,
    List.getD_eq_getElem _ _ hi]

lemma update_indicator_indicator (inside : List Vec → Vec → Bool) (disp : Nat → Vec)
    (solid : Mesh) (fluid : List FluidCellData) (i : Nat) (hi : i < fluid.length) :
    ((update_indicator inside disp solid fluid).2.getD i fc0).indicator =
      if (fluid.getD i fc0).qpoints.all
          (fun q => point_in_mesh inside (move_solid_mesh true disp solid) q)
      then 1 else 0 := by
  rw [update_indicator_getD inside disp solid fluid i hi]

lemma update_indicator_qpoints (inside : List Vec → Vec → Bool) (disp : Nat → Vec)
    (solid : Mesh) (fluid : List FluidCellData) (i : Nat) (hi : i < fluid.length) :
    ((update_indicator inside disp solid fluid).2.getD i fc0).qpoints =
      (fluid.getD i fc0).qpoints := by
  rw [update_indicator_getD inside disp solid fluid i hi]

/-- The indicator assigned by `update_indicator` is 1 exactly when every
quadrature point of the cell lies in the displaced solid mesh. -/
lemma indicator_eq_one_iff (inside : List Vec → Vec → Bool) (disp : Nat → Vec)
    (solid : Mesh) (fluid : List FluidCellData) (i : Nat) (hi : i < fluid.length) :
    ((update_indicator inside disp solid fluid).2.getD i fc0).indicator = 1 ↔
      ∀ q ∈ (fluid.getD i fc0).qpoints,
        point_in_mesh inside (move_solid_mesh true disp solid) q = true := by
  rw [update_indicator_indicator inside disp solid fluid i hi]
  by_cases hall : (fluid.getD i fc0).qpoints.all
      (fun q => point_in_mesh inside (move_solid_mesh true disp solid) q) = true
  · rw [if_pos hall]
    exact ⟨fun _ => List.all_eq_true.mp hall, fun _ => rfl⟩
  · rw [if_neg hall]
    constructor
    · intro h; exact absurd h (by decide)
    · intro hforall
      exact absurd (List.all_eq_true.mpr hforall) hall

/-! ## Helper lemmas about `find_solid_bc` -/

lemma flatMap_if_filter {α β : Type} (p : α → Bool) (g : α → List β) :
    ∀ l : List α,
      l.flatMap (fun a => if p a then g a else []) = (l.filter p).flatMap g := by
  intro l
  induction l with
  | nil => rfl
  | cons a l ih =>
    rw [List.flatMap_cons, ih, List.filter_cons]
    cases hp : p a
    · rw [if_neg (by decide), if_neg (by decide)]
      rfl
    · rw [if_pos rfl, if_pos rfl, List.flatMap_cons]

lemma flatMap_map_range_length {α β : Type} (n : Nat) (g : α → Nat → β) :
    ∀ l : List α, (l.flatMap (fun a => (List.range n).map (g a))).length = n * l.length := by
  intro l
  induction l with
  | nil => rfl
  | cons a l ih =>
    rw [List.flatMap_cons, List.length_append, List.length_map, List.length_range, ih,
      List.length_cons]
    ring

lemma find_solid_bc_cons (dim nFQ : Nat) (viscosity : ℚ) (dirichlet : List Nat)
    (fluidValue : Vec → List ℚ) (fluidGrad : Vec → List Vec)
    (c : SolidCellBC) (rest : List SolidCellBC) :
    find_solid_bc dim nFQ viscosity dirichlet fluidValue fluidGrad (c :: rest) =
      c.faces.flatMap (fun f =>
        if bcFaceQualifies dirichlet f then
          (List.range nFQ).map (solid_bc_point dim viscosity fluidValue fluidGrad f)
        else []) ++ find_solid_bc dim nFQ viscosity dirichlet fluidValue fluidGrad rest := rfl

/-- `find_solid_bc` emits, per boundary face without a Dirichlet id taken in
cell-then-face traversal order, one traction vector per face quadrature
point in order. -/
lemma find_solid_bc_eq (dim nFQ : Nat) (viscosity : ℚ) (dirichlet : List Nat)
    (fluidValue : Vec → List ℚ) (fluidGrad : Vec → List Vec) :
    ∀ cells : List SolidCellBC,
      find_solid_bc dim nFQ viscosity dirichlet fluidValue fluidGrad cells =
        ((cells.flatMap (fun c => c.faces)).filter (bcFaceQualifies dirichlet)).flatMap
          (fun f => (List.range nFQ).map (solid_bc_point dim viscosity fluidValue fluidGrad f)) := by
  intro cells
  induction cells with
  | nil => rfl
  | cons c rest ih =>
    rw [find_solid_bc_cons, ih, List.flatMap_cons, List.filter_append, List.flatMap_append,
      flatMap_if_filter (bcFaceQualifies dirichlet)
        (fun f => (List.range nFQ).map (solid_bc_point dim viscosity fluidValue fluidGrad f))
        c.faces]

/-! ## Helper lemmas about the run loop -/

lemma runAux_zero (first : Bool) (t : TimeCtrl) :
    runAux 0 first t = if t.endT - t.current > eps then none else some ([], t) := rfl

lemma runAux_succ (n : Nat) (first : Bool) (t : TimeCtrl) :
    runAux (n + 1) first t =
      if t.endT - t.current > eps then
        (runAux n false (tick t)).map (fun r => (cycleEvents first ++ r.1, r.2))
      else some ([], t) := rfl

lemma runAux_step (n : Nat) (first : Bool) (t : TimeCtrl)
    (h : t.endT - t.current > eps) :
    runAux (n + 1) first t =
      (runAux n false (tick t)).map (fun r => (cycleEvents first ++ r.1, r.2)) := by
  rw [runAux_succ, if_pos h]

lemma runAux_done (n : Nat) (first : Bool) (t : TimeCtrl)
    (h : ¬(t.endT - t.current > eps)) :
    runAux n first t = some ([], t) := by
  cases n with
  | zero => rw [runAux_zero, if_neg h]
  | succ n => rw [runAux_succ, if_neg h]

/-! ## Theorems for the specification claims -/

/-- C1: starting from the time controller at `t = 0` with end time `3*step`
(and `step` above the loop tolerance), each iteration of `run()` performs in
strict order `find_solid_bc` → solid `run_one_step(first_step)` →
`update_indicator` → `find_fluid_fsi` → fluid `run_one_step(first_step)` →
`first_step := false` → `time.increment()`; the loop runs exactly while
`end() - current() > 1e-12`, so it executes exactly 3 full cycles (2 steps
of fuel do not finish it) and terminates with `current() = end()`. -/
theorem run_loop_three_cycles (s : ℚ) (hs : eps < s) :
    runAux 3 true ⟨3 * s, s, 0⟩ =
      some (cycleEvents true ++ cycleEvents false ++ cycleEvents false, ⟨3 * s, s, 3 * s⟩) ∧
    runAux 2 true ⟨3 * s, s, 0⟩ = none ∧
    (⟨3 * s, s, 3 * s⟩ : TimeCtrl).current = (⟨3 * s, s, 3 * s⟩ : TimeCtrl).endT := by
  have he : (0 : ℚ) < eps := by norm_num [eps]
  have hc0 : (⟨3 * s, s, 0⟩ : TimeCtrl).endT - (⟨3 * s, s, 0⟩ : TimeCtrl).current > eps := by
    show (3 : ℚ) * s - 0 > eps
    linarith
  have hc1 : (⟨3 * s, s, 0 + s⟩ : TimeCtrl).endT -
      (⟨3 * s, s, 0 + s⟩ : TimeCtrl).current > eps := by
    show (3 : ℚ) * s - (0 + s) > eps
    linarith
  have hc2 : (⟨3 * s, s, 0 + s + s⟩ : TimeCtrl).endT -
      (⟨3 * s, s, 0 + s + s⟩ : TimeCtrl).current > eps := by
    show (3 : ℚ) * s - (0 + s + s) > eps
    linarith
  have hc3 : ¬((⟨3 * s, s, 0 + s + s + s⟩ : TimeCtrl).endT -
      (⟨3 * s, s, 0 + s + s + s⟩ : TimeCtrl).current > eps) := by
    show ¬((3 : ℚ) * s - (0 + s + s + s) > eps)
    push_neg
    linarith
  refine ⟨?_, ?_, rfl⟩
  · have h1 : runAux 1 false ⟨3 * s, s, 0 + s + s⟩ =
        some (cycleEvents false, ⟨3 * s, s, 0 + s + s + s⟩) := by
      have h := runAux_step 0 false ⟨3 * s, s, 0 + s + s⟩ hc2
      rw [show tick (⟨3 * s, s, 0 + s + s⟩ : TimeCtrl) = ⟨3 * s, s, 0 + s + s + s⟩ from rfl,
        runAux_done 0 false _ hc3] at h
      exact h
    have h2 : runAux 2 false ⟨3 * s, s, 0 + s⟩ =
        some (cycleEvents false ++ cycleEvents false, ⟨3 * s, s, 0 + s + s + s⟩) := by
      have h := runAux_step 1 false ⟨3 * s, s, 0 + s⟩ hc1
      rw [show tick (⟨3 * s, s, 0 + s⟩ : TimeCtrl) = ⟨3 * s, s, 0 + s + s⟩ from rfl, h1] at h
      exact h
    have h3 : runAux 3 true ⟨3 * s, s, 0⟩ =
        some (cycleEvents true ++ cycleEvents false ++ cycleEvents false,
          ⟨3 * s, s, 0 + s + s + s⟩) := by
      have h := runAux_step 2 true ⟨3 * s, s, 0⟩ hc0
      rw [show tick (⟨3 * s, s, 0⟩ : TimeCtrl) = ⟨3 * s, s, 0 + s⟩ from rfl, h2] at h
      exact h
    have harith : (0 : ℚ) + s + s + s = 3 * s := by ring
    rw [harith] at h3
    exact h3
  · have hz2 : runAux 0 false ⟨3 * s, s, 0 + s + s⟩ = none := by
      rw [runAux_zero, if_pos hc2]
    have hz1 : runAux 1 false ⟨3 * s, s, 0 + s⟩ = none := by
      have h := runAux_step 0 false ⟨3 * s, s, 0 + s⟩ hc1
      rw [show tick (⟨3 * s, s, 0 + s⟩ : TimeCtrl) = ⟨3 * s, s, 0 + s + s⟩ from rfl, hz2] at h
      exact h
    have h := runAux_step 1 true ⟨3 * s, s, 0⟩ hc0
    rw [show tick (⟨3 * s, s, 0⟩ : TimeCtrl) = ⟨3 * s, s, 0 + s⟩ from rfl, hz1] at h
    exact h

/-- Witness for C1 at the concrete step size 1. -/
theorem run_loop_three_cycles_witness :
    eps < (1 : ℚ) ∧
    (runAux 3 true ⟨3 * 1, 1, 0⟩ =
        some (cycleEvents true ++ cycleEvents false ++ cycleEvents false, ⟨3 * 1, 1, 3 * 1⟩) ∧
      runAux 2 true ⟨3 * 1, 1, 0⟩ = none ∧
      (⟨3 * 1, 1, 3 * 1⟩ : TimeCtrl).current = (⟨3 * 1, 1, 3 * 1⟩ : TimeCtrl).endT) :=
  ⟨by norm_num [eps], run_loop_three_cycles 1 (by norm_num [eps])⟩

/-- C2: after `update_indicator`, a fluid cell's indicator is 1 iff every
quadrature point of the cell lies in the solid mesh displaced by the current
solid displacement; the indicator is always exactly 0 or 1; and a single
quadrature point outside the displaced solid forces indicator 0. -/
theorem update_indicator_boolean (inside : List Vec → Vec → Bool) (disp : Nat → Vec)
    (solid : Mesh) (fluid : List FluidCellData) (i : Nat) (hi : i < fluid.length) :
    (((update_indicator inside disp solid fluid).2.getD i fc0).indicator = 1 ↔
      ∀ q ∈ (fluid.getD i fc0).qpoints,
        point_in_mesh inside (move_solid_mesh true disp solid) q = true) ∧
    (((update_indicator inside disp solid fluid).2.getD i fc0).indicator = 0 ∨
      ((update_indicator inside disp solid fluid).2.getD i fc0).indicator = 1) ∧
    ((∃ q ∈ (fluid.getD i fc0).qpoints,
        point_in_mesh inside (move_solid_mesh true disp solid) q = false) →
      ((update_indicator inside disp solid fluid).2.getD i fc0).indicator = 0) := by
  refine ⟨indicator_eq_one_iff inside disp solid fluid i hi, ?_, ?_⟩
  · rw [update_indicator_indicator inside disp solid fluid i hi]
    by_cases hall : (fluid.getD i fc0).qpoints.all
        (fun q => point_in_mesh inside (move_solid_mesh true disp solid) q) = true
    · rw [if_pos hall]; exact Or.inr rfl
    · rw [if_neg hall]; exact Or.inl rfl
  · intro hex
    obtain ⟨q, hq, hfalse⟩ := hex
    rw [update_indicator_indicator inside disp solid fluid i hi]
    have hallf : ¬((fluid.getD i fc0).qpoints.all
        (fun q => point_in_mesh inside (move_solid_mesh true disp solid) q) = true) := by
      intro hall
      have htrue := List.all_eq_true.mp hall q hq
      rw [hfalse] at htrue
      exact absurd htrue (by decide)
    rw [if_neg hallf]

/-- Concrete solid mesh used in the witnesses: a unit square cell. -/
def wMesh : Mesh := ⟨[[0, 0], [1, 0], [0, 1], [1, 1]], [[0, 1, 2, 3]]⟩

/-- Concrete fluid state used in the witnesses: one cell with one
quadrature point. -/
def wFluid : List FluidCellData := [⟨0, 1, [[0, 0]], [], [], [], [], []⟩]

/-- Witness for C2 on a concrete configuration. -/
theorem update_indicator_boolean_witness :
    0 < wFluid.length ∧
    ((((update_indicator (fun _ _ => true) (fun _ => [1, 1]) wMesh wFluid).2.getD 0
          fc0).indicator = 1 ↔
      ∀ q ∈ (wFluid.getD 0 fc0).qpoints,
        point_in_mesh (fun _ _ => true)
          (move_solid_mesh true (fun _ => [1, 1]) wMesh) q = true) ∧
    (((update_indicator (fun _ _ => true) (fun _ => [1, 1]) wMesh wFluid).2.getD 0
          fc0).indicator = 0 ∨
      ((update_indicator (fun _ _ => true) (fun _ => [1, 1]) wMesh wFluid).2.getD 0
          fc0).indicator = 1) ∧
    ((∃ q ∈ (wFluid.getD 0 fc0).qpoints,
        point_in_mesh (fun _ _ => true)
          (move_solid_mesh true (fun _ => [1, 1]) wMesh) q = false) →
      ((update_indicator (fun _ _ => true) (fun _ => [1, 1]) wMesh wFluid).2.getD 0
          fc0).indicator = 0)) :=
  ⟨by decide, update_indicator_boolean (fun _ _ => true) (fun _ => [1, 1]) wMesh wFluid 0
    (by decide)⟩

/-- C7: `move_solid_mesh` visits each vertex once — every vertex occurring
in a cell gets the sampled displacement added exactly once when moving
forward and subtracted exactly once when moving backward — the composition
of the forward and the backward move restores every vertex coordinate
exactly, and consequently `update_indicator` leaves the solid geometry
unchanged. -/
theorem move_solid_mesh_inverse (disp : Nat → Vec) (m : Mesh) (dim : Nat)
    (inside : List Vec → Vec → Bool) (fluid : List FluidCellData)
    (hc : ∀ p ∈ m.vertexCoords, p.length = dim)
    (hd : ∀ v, (disp v).length = dim) :
    (∀ i, i < m.vertexCoords.length → i ∈ m.cells.flatten →
      (move_solid_mesh true disp m).vertexCoords.getD i [] =
          vecAdd (m.vertexCoords.getD i []) (disp i) ∧
        (move_solid_mesh false disp m).vertexCoords.getD i [] =
          vecSub (m.vertexCoords.getD i []) (disp i)) ∧
    move_solid_mesh false disp (move_solid_mesh true disp m) = m ∧
    (update_indicator inside disp m fluid).1 = m := by
  refine ⟨?_, move_solid_mesh_roundtrip disp m dim hc hd, ?_⟩
  · intro i hi hmem
    constructor
    · rw [move_solid_mesh_getD true disp m i hi, if_pos hmem]
      rfl
    · rw [move_solid_mesh_getD false disp m i hi, if_pos hmem]
      rfl
  · show move_solid_mesh false disp (move_solid_mesh true disp m) = m
    exact move_solid_mesh_roundtrip disp m dim hc hd

/-- Witness for C7 on a concrete mesh and displacement. -/
theorem move_solid_mesh_inverse_witness :
    (∀ p ∈ wMesh.vertexCoords, p.length = 2) ∧
    (∀ v : Nat, ((fun (_ : Nat) => ([1, 1] : Vec)) v).length = 2) ∧
    ((∀ i, i < wMesh.vertexCoords.length → i ∈ wMesh.cells.flatten →
      (move_solid_mesh true (fun _ => [1, 1]) wMesh).vertexCoords.getD i [] =
          vecAdd (wMesh.vertexCoords.getD i []) ((fun (_ : Nat) => ([1, 1] : Vec)) i) ∧
        (move_solid_mesh false (fun _ => [1, 1]) wMesh).vertexCoords.getD i [] =
          vecSub (wMesh.vertexCoords.getD i []) ((fun (_ : Nat) => ([1, 1] : Vec)) i)) ∧
    move_solid_mesh false (fun _ => [1, 1]) (move_solid_mesh true (fun _ => [1, 1]) wMesh) =
      wMesh ∧
    (update_indicator (fun _ _ => true) (fun _ => [1, 1]) wMesh wFluid).1 = wMesh) :=
  ⟨by decide, fun _ => rfl,
    move_solid_mesh_inverse (fun _ => [1, 1]) wMesh 2 (fun _ _ => true) wFluid
      (by decide) (fun _ => rfl)⟩

/-- C8: calling `update_indicator` twice in a row, with no intervening
change to the displacement or to either mesh, assigns the identical
indicator to every fluid cell on both calls. -/
theorem update_indicator_idempotent (inside : List Vec → Vec → Bool) (disp : Nat → Vec)
    (solid : Mesh) (fluid : List FluidCellData) (dim : Nat)
    (hc : ∀ p ∈ solid.vertexCoords, p.length = dim)
    (hd : ∀ v, (disp v).length = dim) :
    ∀ i : Nat,
      ((update_indicator inside disp (update_indicator inside disp solid fluid).1
          (update_indicator inside disp solid fluid).2).2.getD i fc0).indicator =
        ((update_indicator inside disp solid fluid).2.getD i fc0).indicator := by
  intro i
  have hrestore : (update_indicator inside disp solid fluid).1 = solid := by
    show move_solid_mesh false disp (move_solid_mesh true disp solid) = solid
    exact move_solid_mesh_roundtrip disp solid dim hc hd
  rw [hrestore]
  by_cases hi : i < fluid.length
  · have hlen : i < (update_indicator inside disp solid fluid).2.length := by
      rw [update_indicator_snd_length]; exact hi
    rw [update_indicator_indicator inside disp solid _ i hlen,
      update_indicator_qpoints inside disp solid fluid i hi,
      update_indicator_indicator inside disp solid fluid i hi]
  · have hge : fluid.length ≤ i := Nat.le_of_not_lt hi
    have hlen1 : (update_indicator inside disp solid fluid).2.length = fluid.length :=
      update_indicator_snd_length inside disp solid fluid
    have hlen2 : (update_indicator inside disp solid
        (update_indicator inside disp solid fluid).2).2.length = fluid.length := by
      rw [update_indicator_snd_length, hlen1]
    rw [List.getD_eq_default _ _ (by rw [hlen2]; exact hge),
      List.getD_eq_default _ _ (by rw [hlen1]; exact hge)]

/-- Witness for C8 on a concrete configuration. -/
theorem update_indicator_idempotent_witness :
    (∀ p ∈ wMesh.vertexCoords, p.length = 2) ∧
    (∀ v : Nat, ((fun (_ : Nat) => ([1, 1] : Vec)) v).length = 2) ∧
    ∀ i : Nat,
      ((update_indicator (fun _ _ => true) (fun _ => [1, 1])
          (update_indicator (fun _ _ => true) (fun _ => [1, 1]) wMesh wFluid).1
          (update_indicator (fun _ _ => true) (fun _ => [1, 1]) wMesh wFluid).2).2.getD i
            fc0).indicator =
        ((update_indicator (fun _ _ => true) (fun _ => [1, 1]) wMesh wFluid).2.getD i
          fc0).indicator :=
  ⟨by decide, fun _ => rfl,
    update_indicator_idempotent (fun _ _ => true) (fun _ => [1, 1]) wMesh wFluid 2
      (by decide) (fun _ => rfl)⟩

/-- C9: in the coupling step, `update_indicator` restores the solid mesh
before `find_fluid_fsi` runs, and `find_fluid_fsi` moves no mesh itself, so
the solid-side interpolations are evaluated against the undisplaced solid
mesh, while the immersed classification of the fluid cells was decided
against the displaced solid shape. -/
theorem indicator_then_fsi_undeformed (inside : List Vec → Vec → Bool) (disp : Nat → Vec)
    (sAcc : Mesh → Vec → Option Vec) (sSig : Mesh → Vec → Option Mat)
    (dim nQ : Nat) (dt : ℚ) (solid : Mesh) (fluid : List FluidCellData)
    (hc : ∀ p ∈ solid.vertexCoords, p.length = dim)
    (hd : ∀ v, (disp v).length = dim) :
    (indicator_then_fsi inside disp sAcc sSig dim nQ dt solid fluid).1 = solid ∧
    (indicator_then_fsi inside disp sAcc sSig dim nQ dt solid fluid).2.2 =
      find_fluid_fsi dim nQ dt (sAcc solid) (sSig solid)
        (update_indicator inside disp solid fluid).2 ∧
    (∀ i, i < fluid.length →
      (((indicator_then_fsi inside disp sAcc sSig dim nQ dt solid fluid).2.1.getD i
          fc0).indicator = 1 ↔
        ∀ q ∈ (fluid.getD i fc0).qpoints,
          point_in_mesh inside (move_solid_mesh true disp solid) q = true)) := by
  have hrestore : (update_indicator inside disp solid fluid).1 = solid := by
    show move_solid_mesh false disp (move_solid_mesh true disp solid) = solid
    exact move_solid_mesh_roundtrip disp solid dim hc hd
  refine ⟨?_, ?_, ?_⟩
  · show (update_indicator inside disp solid fluid).1 = solid
    exact hrestore
  · show find_fluid_fsi dim nQ dt (sAcc (update_indicator inside disp solid fluid).1)
        (sSig (update_indicator inside disp solid fluid).1)
        (update_indicator inside disp solid fluid).2 = _
    rw [hrestore]
  · intro i hi
    show ((update_indicator inside disp solid fluid).2.getD i fc0).indicator = 1 ↔ _
    exact indicator_eq_one_iff inside disp solid fluid i hi

/-- Witness for C9 on a concrete configuration. -/
theorem indicator_then_fsi_undeformed_witness :
    (∀ p ∈ wMesh.vertexCoords, p.length = 2) ∧
    (∀ v : Nat, ((fun (_ : Nat) => ([1, 1] : Vec)) v).length = 2) ∧
    ((indicator_then_fsi (fun _ _ => true) (fun _ => [1, 1]) (fun _ _ => some [0, 0])
        (fun _ _ => some [[0, 0], [0, 0]]) 2 1 1 wMesh wFluid).1 = wMesh ∧
    (indicator_then_fsi (fun _ _ => true) (fun _ => [1, 1]) (fun _ _ => some [0, 0])
        (fun _ _ => some [[0, 0], [0, 0]]) 2 1 1 wMesh wFluid).2.2 =
      find_fluid_fsi 2 1 1 ((fun (_ : Mesh) (_ : Vec) => some ([0, 0] : Vec)) wMesh)
        ((fun (_ : Mesh) (_ : Vec) => some ([[0, 0], [0, 0]] : Mat)) wMesh)
        (update_indicator (fun _ _ => true) (fun _ => [1, 1]) wMesh wFluid).2 ∧
    (∀ i, i < wFluid.length →
      (((indicator_then_fsi (fun _ _ => true) (fun _ => [1, 1]) (fun _ _ => some [0, 0])
          (fun _ _ => some [[0, 0], [0, 0]]) 2 1 1 wMesh wFluid).2.1.getD i
            fc0).indicator = 1 ↔
        ∀ q ∈ (wFluid.getD i fc0).qpoints,
          point_in_mesh (fun _ _ => true)
            (move_solid_mesh true (fun _ => [1, 1]) wMesh) q = true))) :=
  ⟨by decide, fun _ => rfl,
    indicator_then_fsi_undeformed (fun _ _ => true) (fun _ => [1, 1])
      (fun _ _ => some [0, 0]) (fun _ _ => some [[0, 0], [0, 0]]) 2 1 1 wMesh wFluid
      (by decide) (fun _ => rfl)⟩

/-- C3: `find_fluid_fsi` traverses the fluid cells in fixed order, skips
every cell with indicator 0, and for each quadrature point of each
surviving cell appends exactly `fluid_stress - solid_stress` to the stress
sequence and `fluid_accel - solid_accel` to the acceleration sequence,
where `fluid_stress = -p I + mu sym(grad v)`, `fluid_accel = dv/dt +
(grad v) v` with the cell's viscosity `mu` and step size `dt`, and the
solid stress and acceleration are interpolated at the same physical
point. -/
theorem find_fluid_fsi_characterization (dim nQ : Nat) (dt : ℚ)
    (sAcc : Vec → Option Vec) (sSig : Vec → Option Mat)
    (hA : ∀ pt, (sAcc pt).isSome) (hS : ∀ pt, (sSig pt).isSome)
    (cells : List FluidCellData) :
    find_fluid_fsi dim nQ dt sAcc sSig cells =
      some
        ((cells.filter (fun c => !(c.indicator == 0))).flatMap (fun c =>
          (List.range nQ).map (fun q =>
            matSub
              (matAdd (smulMat (-(c.p.getD q 0)) (idMat dim))
                (smulMat c.mu (c.sym_grad_v.getD q [])))
              ((sSig (c.qpoints.getD q [])).getD []))),
         (cells.filter (fun c => !(c.indicator == 0))).flatMap (fun c =>
          (List.range nQ).map (fun q =>
            vecSub
              (vecAdd (vecDiv (c.dv.getD q []) dt)
                (matVec (c.grad_v.getD q []) (c.v.getD q [])))
              ((sAcc (c.qpoints.getD q [])).getD [])))) :=
  find_fluid_fsi_eq dim nQ dt sAcc sSig hA hS cells

/-- Concrete immersed fluid cell used in witnesses and the C4
counterexample: indicator 1, one quadrature point at the origin. -/
def cexCell : FluidCellData :=
  ⟨1, 1, [[0, 0]], [[[0, 0], [0, 0]]], [[[0, 0], [0, 0]]], [[0, 0]], [[0, 0]], [0]⟩

/-- Witness for C3 on a concrete configuration with one immersed cell. -/
theorem find_fluid_fsi_characterization_witness :
    (∀ pt : Vec, ((fun (_ : Vec) => some ([0, 0] : Vec)) pt).isSome) ∧
    (∀ pt : Vec, ((fun (_ : Vec) => some ([[0, 0], [0, 0]] : Mat)) pt).isSome) ∧
    find_fluid_fsi 2 1 1 (fun _ => some [0, 0]) (fun _ => some [[0, 0], [0, 0]]) [cexCell] =
      some
        (([cexCell].filter (fun c => !(c.indicator == 0))).flatMap (fun c =>
          (List.range 1).map (fun q =>
            matSub
              (matAdd (smulMat (-(c.p.getD q 0)) (idMat 2))
                (smulMat c.mu (c.sym_grad_v.getD q [])))
              (((fun (_ : Vec) => some ([[0, 0], [0, 0]] : Mat))
                (c.qpoints.getD q [])).getD []))),
         ([cexCell].filter (fun c => !(c.indicator == 0))).flatMap (fun c =>
          (List.range 1).map (fun q =>
            vecSub
              (vecAdd (vecDiv (c.dv.getD q []) 1)
                (matVec (c.grad_v.getD q []) (c.v.getD q [])))
              (((fun (_ : Vec) => some ([0, 0] : Vec))
                (c.qpoints.getD q [])).getD [])))) :=
  ⟨fun _ => rfl, fun _ => rfl,
    find_fluid_fsi_characterization 2 1 1 (fun _ => some [0, 0])
      (fun _ => some [[0, 0], [0, 0]]) (fun _ => rfl) (fun _ => rfl) [cexCell]⟩

/-- C4 as stated is false: when the solid-side interpolation fails at the
(immersed) quadrature point, `find_fluid_fsi` yields no output at all — it
propagates the failure instead of appending a zero stress and a zero
acceleration discrepancy for that point. -/
theorem find_fluid_fsi_no_zero_fallback :
    find_fluid_fsi 2 1 1 (fun _ => none) (fun _ => some [[0, 0], [0, 0]]) [cexCell] = none ∧
    find_fluid_fsi 2 1 1 (fun _ => none) (fun _ => some [[0, 0], [0, 0]]) [cexCell] ≠
      some ([[[0, 0], [0, 0]]], [[0, 0]]) := by
  constructor
  · rfl
  · intro h
    exact absurd h (by decide)

/-- C4 (amended): a failed solid-side interpolation at any quadrature point
of any cell with non-zero indicator is fatal to `find_fluid_fsi` — the
failure propagates and no discrepancy sequences are produced (no
zero-discrepancy fallback exists). -/
theorem find_fluid_fsi_failure_fatal (dim nQ : Nat) (dt : ℚ)
    (sAcc : Vec → Option Vec) (sSig : Vec → Option Mat)
    (cells : List FluidCellData) (c : FluidCellData) (hc : c ∈ cells)
    (hind : ¬c.indicator = 0) (q : Nat) (hq : q < nQ)
    (hfail : sAcc (c.qpoints.getD q []) = none) :
    find_fluid_fsi dim nQ dt sAcc sSig cells = none :=
  find_fluid_fsi_none dim nQ dt sAcc sSig cells c hc hind q hq hfail

/-- Witness for the amended C4 on a concrete configuration. -/
theorem find_fluid_fsi_failure_fatal_witness :
    cexCell ∈ [cexCell] ∧ ¬cexCell.indicator = 0 ∧ 0 < 1 ∧
    (fun (_ : Vec) => (none : Option Vec)) (cexCell.qpoints.getD 0 []) = none ∧
    find_fluid_fsi 2 1 1 (fun _ => none) (fun _ => some [[0, 0], [0, 0]]) [cexCell] = none :=
  ⟨List.mem_cons_self cexCell [], by decide, by decide, rfl,
    find_fluid_fsi_failure_fatal 2 1 1 (fun _ => none) (fun _ => some [[0, 0], [0, 0]])
      [cexCell] cexCell (List.mem_cons_self cexCell []) (by decide) 0 (by decide) rfl⟩

/-- C5: `find_solid_bc` processes a solid face iff it is at the boundary
and its boundary id is not in the Dirichlet set; for each quadrature point
of each such face (on the undeformed geometry, with the undeformed normal)
it appends `(-p I + viscosity sym(grad v)) * normal` with the fluid
pressure and velocity gradient interpolated at that point, so the output
length is the total quadrature-point count over qualifying faces, in
face-then-point order. -/
theorem find_solid_bc_characterization (dim nFQ : Nat) (viscosity : ℚ)
    (dirichlet : List Nat) (fluidValue : Vec → List ℚ) (fluidGrad : Vec → List Vec)
    (cells : List SolidCellBC) :
    find_solid_bc dim nFQ viscosity dirichlet fluidValue fluidGrad cells =
      ((cells.flatMap (fun c => c.faces)).filter
          (fun f => f.at_boundary && !(dirichlet.contains f.boundary_id))).flatMap
        (fun f => (List.range nFQ).map (fun q =>
          matVec
            (matAdd
              (smulMat (-((fluidValue (f.qpoints.getD q [])).getD dim 0)) (idMat dim))
              (smulMat viscosity
                ((List.range dim).map (fun i => (List.range dim).map (fun j =>
                  (((fluidGrad (f.qpoints.getD q [])).getD i []).getD j 0 +
                    ((fluidGrad (f.qpoints.getD q [])).getD j []).getD i 0) / 2)))))
            (f.normals.getD q []))) ∧
    (find_solid_bc dim nFQ viscosity dirichlet fluidValue fluidGrad cells).length =
      nFQ * ((cells.flatMap (fun c => c.faces)).filter
          (fun f => f.at_boundary && !(dirichlet.contains f.boundary_id))).length := by
  have h := find_solid_bc_eq dim nFQ viscosity dirichlet fluidValue fluidGrad cells
  constructor
  · exact h
  · rw [h, flatMap_map_range_length]
    rfl

/-- C6: the stress- and acceleration-discrepancy sequences produced by
`find_fluid_fsi` have equal length, equal to the number of quadrature
points per cell times the number of cells with indicator 1 (indicators
being 0 or 1 after `update_indicator`). -/
theorem find_fluid_fsi_lengths (dim nQ : Nat) (dt : ℚ)
    (sAcc : Vec → Option Vec) (sSig : Vec → Option Mat)
    (hA : ∀ pt, (sAcc pt).isSome) (hS : ∀ pt, (sSig pt).isSome)
    (cells : List FluidCellData)
    (hbool : ∀ c ∈ cells, c.indicator = 0 ∨ c.indicator = 1) :
    ∃ S A, find_fluid_fsi dim nQ dt sAcc sSig cells = some (S, A) ∧
      S.length = A.length ∧
      S.length = nQ * (cells.filter (fun c => c.indicator == 1)).length := by
  have hfilter : cells.filter (fun c => !(c.indicator == 0)) =
      cells.filter (fun c => c.indicator == 1) := by
    apply List.filter_congr
    intro c hcmem
    rcases hbool c hcmem with h0 | h1
    · simp [h0]
    · simp [h1]
  refine ⟨_, _, find_fluid_fsi_eq dim nQ dt sAcc sSig hA hS cells, ?_, ?_⟩
  · rw [flatMap_map_range_length, flatMap_map_range_length]
  · rw [flatMap_map_range_length, hfilter]

/-- Witness for C6 on a concrete configuration with one immersed cell. -/
theorem find_fluid_fsi_lengths_witness :
    (∀ pt : Vec, ((fun (_ : Vec) => some ([0, 0] : Vec)) pt).isSome) ∧
    (∀ pt : Vec, ((fun (_ : Vec) => some ([[0, 0], [0, 0]] : Mat)) pt).isSome) ∧
    (∀ c ∈ [cexCell], c.indicator = 0 ∨ c.indicator = 1) ∧
    ∃ S A, find_fluid_fsi 2 1 1 (fun _ => some [0, 0])
        (fun _ => some [[0, 0], [0, 0]]) [cexCell] = some (S, A) ∧
      S.length = A.length ∧
      S.length = 1 * ([cexCell].filter (fun c => c.indicator == 1)).length :=
  ⟨fun _ => rfl, fun _ => rfl, by decide,
    find_fluid_fsi_lengths 2 1 1 (fun _ => some [0, 0]) (fun _ => some [[0, 0], [0, 0]])
      (fun _ => rfl) (fun _ => rfl) [cexCell] (by decide)⟩

/-- C10: the program takes a single optional argument (the configuration
file path), defaulting to `"parameters.prm"`; it exits with code 0 on
success and code 1 on any uncaught failure, writing diagnostics to standard
error. -/
theorem cli_surface (args : List String) (body : String → Except RunError Unit) :
    chooseInfile [] = "parameters.prm" ∧
    (∀ a rest, chooseInfile (a :: rest) = a) ∧
    ((mainRun args body).1 = 0 ∨ (mainRun args body).1 = 1) ∧
    (body (chooseInfile args) = Except.ok () → mainRun args body = (0, [])) ∧
    (∀ e, body (chooseInfile args) = Except.error e →
      (mainRun args body).1 = 1 ∧ (mainRun args body).2 ≠ []) := by
  refine ⟨rfl, fun a rest => rfl, ?_, ?_, ?_⟩
  · cases hb : body (chooseInfile args) with
    | ok u =>
      left
      unfold mainRun
      rw [hb]
    | error e =>
      right
      unfold mainRun
      rw [hb]
      cases e <;> rfl
  · intro hok
    unfold mainRun
    rw [hok]
  · intro e he
    unfold mainRun
    rw [he]
    cases e with
    | exc msg => exact ⟨rfl, List.cons_ne_nil _ _⟩
    | unknown => exact ⟨rfl, List.cons_ne_nil _ _⟩

/-- Witness for C10 at concrete arguments and a concrete body. -/
theorem cli_surface_witness :
    chooseInfile [] = "parameters.prm" ∧
    (∀ a rest, chooseInfile (a :: rest) = a) ∧
    ((mainRun [] (fun _ => Except.ok ())).1 = 0 ∨
      (mainRun [] (fun _ => Except.ok ())).1 = 1) ∧
    ((fun (_ : String) => (Except.ok () : Except RunError Unit)) (chooseInfile []) =
        Except.ok () →
      mainRun [] (fun _ => Except.ok ()) = (0, [])) ∧
    (∀ e, (fun (_ : String) => (Except.ok () : Except RunError Unit)) (chooseInfile []) =
        Except.error e →
      (mainRun [] (fun _ => Except.ok ())).1 = 1 ∧
      (mainRun [] (fun _ => Except.ok ())).2 ≠ []) :=
  cli_surface [] (fun _ => Except.ok ())

end FSIVerif
